import Mathlib

/-!
Shallow embedding of the LangGraph-Agent repository's conversation-state
core: the chat turn handler, tool/log merge logic and persistence layer of
`streamlit_app.py`, the tool-usage extraction of `langgraph_main.py`, and
the tool adapters in `tools/`.  External effects (the language model, the
vector store, the SQLite engine, the web-search API, the system clock) are
passed in as explicit parameters or oracle functions; every branch and
string constant of the embedded functions follows the Python source.
-/

namespace LGApp

/-! ## Python-level helpers (stable sort, int parsing, string splitting) -/

/-- Stable insertion of `x` into an already sorted list: `x` goes after every
element whose key is `≤ key x`.  Used to model Python `list.sort(key=...)`,
which is a stable sort. -/
def insertStable {α : Type} (key : α → Nat) (x : α) : List α → List α
  | [] => [x]
  | y :: ys => if key y ≤ key x then y :: insertStable key x ys else x :: y :: ys

/-- Stable sort by a `Nat` key, modelling Python `list.sort(key=...)`. -/
def pySortByKey {α : Type} (key : α → Nat) (l : List α) : List α :=
  l.foldl (fun acc x => insertStable key x acc) []

/-- Lexicographic code-point comparison of strings (Python `<=` on `str`),
written over the character lists so it evaluates by reduction. -/
def charListLe : List Char → List Char → Bool
  | [], _ => true
  | _ :: _, [] => false
  | a :: as, b :: bs =>
    if a.toNat < b.toNat then true
    else if b.toNat < a.toNat then false
    else charListLe as bs

/-- Stable insertion for a `String` key (used for `json.dumps(sort_keys=True)`). -/
def insertStableStr {α : Type} (key : α → String) (x : α) : List α → List α
  | [] => [x]
  | y :: ys =>
    if charListLe (key y).data (key x).data then y :: insertStableStr key x ys
    else x :: y :: ys

/-- Stable sort by a `String` key. -/
def pySortByStrKey {α : Type} (key : α → String) (l : List α) : List α :=
  l.foldl (fun acc x => insertStableStr key x acc) []

/-! ## Data model

`Message` models the LangChain message objects kept in a conversation's
`messages` list (`HumanMessage` / `AIMessage` / `SystemMessage`). -/

inductive Message where
  | human (content : String)
  | ai (content : String)
  | system (content : String)
deriving DecidableEq, Repr

/-- A JSON-ish value as it appears inside an execution-log entry:
a string, an integer, a list of tool names, or the nested `message_flow`
list of an `execution_overview` entry. -/
inductive JVal where
  | s (v : String)
  | n (v : Int)
  | names (v : List String)
  | flow (v : List (Nat × String × Nat × Bool × Nat))
deriving DecidableEq, Repr

/-- One execution-log entry: a Python dict, modelled as an insertion-ordered
association list with string keys. -/
abbrev LogEntry := List (String × JVal)

/-- One tool-call record dict as produced by the extraction loop in
`langgraph_main.py` (keys `tool_name`, `call_id`, `arguments`, `timestamp`,
`status`, `response`); `Option` fields model keys that may be absent. -/
structure ToolRecord where
  tool_name : String
  call_id : Option String
  arguments : List (String × String)
  timestamp : Option String
  status : String
  response : Option String
deriving DecidableEq, Repr

/-- An element of a conversation's `tools_used` list: either a record dict,
or some other JSON value (the code guards each use with `isinstance(tool, dict)`). -/
inductive ToolEntry where
  | record (r : ToolRecord)
  | raw (s : String)
deriving DecidableEq, Repr

/-- One conversation as held in `st.session_state.conversations[conv_id]`. -/
structure Conversation where
  messages : List Message
  tools_used : List ToolEntry
  execution_logs : List LogEntry
  created_at : String
deriving DecidableEq, Repr

/-! ## Serialization (`serialize_message` / `deserialize_message` /
`serialize_conversation` and the deserializing part of
`load_conversations_from_disk` in `streamlit_app.py`) -/

/-- The `{type, content}` dict written for one message. -/
structure SerMessage where
  type : String
  content : String
deriving DecidableEq, Repr

/-- `serialize_message`: maps a message object to its `{type, content}` dict. -/
def serialize_message : Message → SerMessage
  | Message.human c => { type := "human", content := c }
  | Message.ai c => { type := "ai", content := c }
  | Message.system c => { type := "system", content := c }

/-- `deserialize_message`: `"human"` and `"ai"` map back to their classes,
anything else becomes a `SystemMessage`. -/
def deserialize_message (d : SerMessage) : Message :=
  if d.type = "human" then Message.human d.content
  else if d.type = "ai" then Message.ai d.content
  else Message.system d.content

/-- The per-session JSON record written to `logs/{conv_id}.json`. -/
structure SerConversation where
  conversation_id : String
  created_at : String
  messages : List SerMessage
  tools_used : List ToolEntry
  execution_logs : List LogEntry
deriving DecidableEq, Repr

/-- `serialize_conversation`: messages are serialized one by one; the
`tools_used` and `execution_logs` lists are written through unchanged. -/
def serialize_conversation (conv_id : String) (c : Conversation) : SerConversation :=
  { conversation_id := conv_id
    created_at := c.created_at
    messages := c.messages.map serialize_message
    tools_used := c.tools_used
    execution_logs := c.execution_logs }

/-- The deserializing step of `load_conversations_from_disk`: messages are
rebuilt with `deserialize_message`; `tools_used`, `execution_logs` and
`created_at` are read back as stored. -/
def deserialize_conversation (p : SerConversation) : Conversation :=
  { messages := p.messages.map deserialize_message
    tools_used := p.tools_used
    execution_logs := p.execution_logs
    created_at := p.created_at }

theorem deserialize_serialize_message (m : Message) :
    deserialize_message (serialize_message m) = m := by
  cases m <;> rfl

/-! ## Log-entry signatures and the merge/dedup logic of the chat turn
handler (`build_log_signature` and the merge block in `streamlit_app.py`) -/

/-- `build_log_signature`: `json.dumps(log_entry, sort_keys=True)` serializes
a dict with its keys in sorted order, so two dicts get the same signature
exactly when they are equal as dicts.  The signature is modelled as the
key-sorted association list. -/
def build_log_signature (e : LogEntry) : List (String × JVal) :=
  pySortByStrKey (fun p => p.1) e

/-- Python truthiness of `tool.get("call_id")`: a missing key or an empty
string both count as "no call id". -/
def truthyId : Option String → Option String
  | none => none
  | some c => if c = "" then none else some c

/-- The `existing_tool_ids` set: call ids of the existing tool records
(`isinstance(tool, dict) and tool.get("call_id")`). -/
def existingToolIds (l : List ToolEntry) : List String :=
  l.filterMap fun t =>
    match t with
    | ToolEntry.record r => truthyId r.call_id
    | ToolEntry.raw _ => none

/-- `if not tool.get("timestamp"): tool["timestamp"] = datetime.now().isoformat()`. -/
def fillTimestamp (r : ToolRecord) (now : String) : ToolRecord :=
  match r.timestamp with
  | none => { r with timestamp := some now }
  | some s => if s = "" then { r with timestamp := some now } else r

/-- The loop over `new_tools_used`: non-dict entries are skipped; a record
whose truthy call id is already in the seen set is skipped; otherwise its
call id (if any) joins the seen set, a missing timestamp is filled in, and
the record is kept. -/
def dedupNewTools (ids : List String) (now : String) : List ToolEntry → List ToolEntry
  | [] => []
  | ToolEntry.raw _ :: ts => dedupNewTools ids now ts
  | ToolEntry.record r :: ts =>
    match truthyId r.call_id with
    | some c =>
      if c ∈ ids then dedupNewTools ids now ts
      else ToolEntry.record (fillTimestamp r now) :: dedupNewTools (c :: ids) now ts
    | none => ToolEntry.record (fillTimestamp r now) :: dedupNewTools ids now ts

/-- `combined_tools = existing_tools + filtered_new_tools`. -/
def mergeTools (existing new : List ToolEntry) (now : String) : List ToolEntry :=
  existing ++ dedupNewTools (existingToolIds existing) now new

/-- The loop over `execution_logs`: an entry whose signature is already in
the seen set is dropped; a kept entry adds its signature to the set. -/
def dedupNewLogs (seen : List (List (String × JVal))) : List LogEntry → List LogEntry
  | [] => []
  | e :: es =>
    let s := build_log_signature e
    if s ∈ seen then dedupNewLogs seen es
    else e :: dedupNewLogs (s :: seen) es

/-- `combined_logs = existing_logs + filtered_new_logs`, seeded with the
signatures of the existing entries. -/
def mergeLogs (existing new : List LogEntry) : List LogEntry :=
  existing ++ dedupNewLogs (existing.map build_log_signature) new

/-! ## Tool toggles and routing (`tool_toggles`, `get_enabled_tool_functions`,
`get_enabled_tools` and the `priority_tools` block of `streamlit_app.py`) -/

/-- The four named tools of the registry. -/
inductive ToolName where
  | search_web
  | document_retrieval
  | sql_retrieval
  | run_code
deriving DecidableEq, Repr

/-- `st.session_state.tool_toggles`: one boolean per tool, initialised in
insertion order `search_web, document_retrieval, sql_retrieval, run_code`. -/
structure ToolToggles where
  search_web : Bool
  document_retrieval : Bool
  sql_retrieval : Bool
  run_code : Bool
deriving DecidableEq, Repr

/-- `get_enabled_tool_functions`: iterates `tool_toggles` in insertion order
and collects the adapter of every enabled tool. -/
def get_enabled_tool_functions (t : ToolToggles) : List ToolName :=
  (if t.search_web then [ToolName.search_web] else []) ++
  (if t.document_retrieval then [ToolName.document_retrieval] else []) ++
  (if t.sql_retrieval then [ToolName.sql_retrieval] else []) ++
  (if t.run_code then [ToolName.run_code] else [])

/-- One entry of the `enabled_tools` list built by `get_enabled_tools`. -/
structure ToolDisplay where
  name : String
  display_name : String
  icon : String
deriving DecidableEq, Repr

/-- The `tool_configs` dict of `get_enabled_tools`, in insertion order. -/
def tool_configs : List ToolDisplay :=
  [ { name := "search_web", display_name := "Search Web", icon := "🔍" },
    { name := "document_retrieval", display_name := "Document Retrieval", icon := "📄" },
    { name := "sql_retrieval", display_name := "SQL Query", icon := "🗄️" },
    { name := "run_code", display_name := "Code Execution", icon := "💻" } ]

/-- Membership test for a toggle by tool name string
(`st.session_state.tool_toggles.get(tool_name, True)`). -/
def toggleFor (t : ToolToggles) (name : String) : Bool :=
  if name = "search_web" then t.search_web
  else if name = "document_retrieval" then t.document_retrieval
  else if name = "sql_retrieval" then t.sql_retrieval
  else if name = "run_code" then t.run_code
  else true

/-- `get_enabled_tools`: the enabled subset of `tool_configs`, in
registration order. -/
def get_enabled_tools (t : ToolToggles) : List ToolDisplay :=
  tool_configs.filter fun d => toggleFor t d.name

/-- The `priority_order` dict of the chat page, with the Python
`dict.get(name, 4)` default. -/
def priority_order (name : String) : Nat :=
  if name = "document_retrieval" then 1
  else if name = "sql_retrieval" then 2
  else if name = "search_web" then 3
  else 4

/-- The `priority_tools` computation on the chat page: the enabled tools are
filtered to the three retrieval tools and stably sorted by `priority_order`. -/
def priority_tools (t : ToolToggles) : List ToolDisplay :=
  pySortByKey (fun d => priority_order d.name)
    ((get_enabled_tools t).filter fun d =>
      d.name ∈ ["document_retrieval", "sql_retrieval", "search_web"])

/-! ## The chat turn handler (`if prompt := st.chat_input(...)` block of
`streamlit_app.py`) -/

/-- What the agent call inside the `try` block did for this turn: either
`run_agent_query_with_tools` returned `(response, new_tools_used,
execution_logs)`, or an exception with message `msg` escaped to the
`except` branch. -/
inductive TurnOutcome where
  | success (response : String) (newTools : List ToolEntry) (newLogs : List LogEntry)
  | exception (msg : String)
deriving Repr

/-- The wall-clock readings of one turn (`query_start_time`,
`query_end_time` and the rendered `round(duration_seconds, 3)`). -/
structure TimingInfo where
  startIso : String
  endIso : String
  durationRepr : String
deriving DecidableEq, Repr

/-- The fixed reply used when no tool toggle is enabled. -/
def noToolsMessage : String :=
  "No tools are enabled. Please enable at least one tool in the Tool Management section."

/-- `{"type": "error", "message": msg}`. -/
def errorLogEntry (msg : String) : LogEntry :=
  [("type", JVal.s "error"), ("message", JVal.s msg)]

/-- The branch inside the `try`/`except`: the no-tools short circuit, the
successful agent call, or the `except Exception` handler.  Returns the
assistant reply together with `new_tools_used` and `execution_logs`. -/
def turnBranch (t : ToolToggles) (outcome : TurnOutcome) :
    String × List ToolEntry × List LogEntry :=
  if (get_enabled_tool_functions t).isEmpty then
    (noToolsMessage, [], [errorLogEntry "No tools enabled"])
  else
    match outcome with
    | TurnOutcome.success r ts ls => (r, ts, ls)
    | TurnOutcome.exception m => ("Error: " ++ m, [], [errorLogEntry m])

/-- The `query_timing` entry appended after the branch. -/
def timingEntry (prompt : String) (timing : TimingInfo) (newTools : List ToolEntry) :
    LogEntry :=
  [ ("type", JVal.s "query_timing"),
    ("query", JVal.s prompt),
    ("timestamp", JVal.s timing.startIso),
    ("start_time", JVal.s timing.startIso),
    ("end_time", JVal.s timing.endIso),
    ("duration_seconds", JVal.s timing.durationRepr),
    ("tools_used", JVal.names (newTools.filterMap fun e =>
      match e with
      | ToolEntry.record r => some r.tool_name
      | ToolEntry.raw _ => none)) ]

/-- One full turn of the chat handler: the user message is appended first,
the branch produces the assistant reply and the new tool/log records, the
timing entry is appended, new records are merged with deduplication, and
the updated conversation is persisted. -/
def handleTurn (conv : Conversation) (t : ToolToggles) (prompt : String)
    (outcome : TurnOutcome) (timing : TimingInfo) (now : String) : Conversation :=
  let msgs1 := conv.messages ++ [Message.human prompt]
  let existingTools := conv.tools_used
  let existingLogs := conv.execution_logs
  let b := turnBranch t outcome
  let msgs2 := msgs1 ++ [Message.ai b.1]
  let allNewLogs := b.2.2 ++ [timingEntry prompt timing b.2.1]
  { messages := msgs2
    tools_used := mergeTools existingTools b.2.1 now
    execution_logs := mergeLogs existingLogs allNewLogs
    created_at := conv.created_at }

/-- The data of one submitted query: the toggle state at that turn, the
query text, the agent outcome, and the clock readings. -/
structure TurnInput where
  toggles : ToolToggles
  prompt : String
  outcome : TurnOutcome
  timing : TimingInfo
  now : String

/-- A whole session: the turn handler applied to each query in order. -/
def processTurns (conv : Conversation) : List TurnInput → Conversation
  | [] => conv
  | t :: ts => processTurns (handleTurn conv t.toggles t.prompt t.outcome t.timing t.now) ts

/-- `True` exactly when the list alternates `user, assistant, user,
assistant, ...` with an assistant message closing every pair. -/
def userAssistantAlternating : List Message → Bool
  | [] => true
  | Message.human _ :: Message.ai _ :: rest => userAssistantAlternating rest
  | _ => false

/-! ## Tool adapters (`tools/SearchTool.py`, `tools/SQLTool.py`,
`tools/DocumentTool.py`, `tools/CodeTool.py`)

Fallible external calls are modelled as `Except String α` oracles:
`Except.error msg` stands for a raised Python exception with text `msg`.
An adapter returning `Except.error` lets that exception escape to its
caller; returning `Except.ok` is a normal string return. -/

/-- `search_web`: builds the Serper wrapper and returns `search.run(query)`
directly — there is no `try`/`except` around the adapter call. -/
def search_web (searchRun : String → Except String String) (query : String) :
    Except String String :=
  searchRun query

/-- `query.strip().upper().startswith(("SELECT", "WITH"))`. -/
def looksLikeSql (query : String) : Bool :=
  (query.trim.toUpper.startsWith "SELECT") || (query.trim.toUpper.startsWith "WITH")

/-- Markdown fence stripping applied to an LLM-generated SQL string:
`split("```")[1]`, drop a leading `sql`, then `strip()`. -/
def stripSqlFences (s : String) : String :=
  if s.startsWith "```" then
    let part := ((s.splitOn "```").getD 1 "")
    let part := if part.startsWith "sql" then part.drop 3 else part
    part.trim
  else s

/-- The body of `sql_retrieval`'s `try` block: connect to the database,
run direct SQL, or generate SQL from natural language and run that.
`getDb` models `_get_database` (which raises on unknown names or missing
files), `dbRun db sql` models `db.run(sql)` and `genSql db query` models
the schema-prompted LLM call; each may raise. -/
def sqlTryBody (getDb : String → Except String Unit)
    (dbRun : String → String → Except String String)
    (genSql : String → String → Except String String)
    (query database : String) : Except String String := do
  let _ ← getDb database
  if looksLikeSql query then
    let result ← dbRun database query
    pure ("Query executed successfully. Results:\n" ++ result)
  else
    let raw ← genSql database query
    let sqlQuery := stripSqlFences raw.trim
    let result ← dbRun database sqlQuery
    pure ("Generated SQL: " ++ sqlQuery ++ "\n\nResults:\n" ++ result)

/-- `sql_retrieval` after a successful `is_database_enabled` read: the gate
(`database ∈ enabled_databases`, the list read from the configuration file)
runs before any database work; the whole `try` body is wrapped so that
every exception raised inside it becomes the returned
`Error executing SQL query:` string.  The config read itself runs before
the `try` and can raise; that channel is added by `sql_retrieval_full`. -/
def sql_retrieval (enabled_databases : List String)
    (getDb : String → Except String Unit)
    (dbRun : String → String → Except String String)
    (genSql : String → String → Except String String)
    (query database : String) : Except String String :=
  if database ∈ enabled_databases then
    match sqlTryBody getDb dbRun genSql query database with
    | Except.ok s => Except.ok s
    | Except.error e => Except.ok ("Error executing SQL query: " ++ e)
  else
    Except.ok ("Database '" ++ database ++
      "' is not enabled for access. Please enable it in the file management panel.")

/-- Split on a single character, defined further below for `conv_id`
parsing as well; declared here for `PosixPath(...).name`. -/
def splitChars (sep : Char) : List Char → List (List Char)
  | [] => [[]]
  | x :: xs =>
    if x = sep then [] :: splitChars sep xs
    else
      match splitChars sep xs with
      | [] => [[x]]
      | y :: ys => (x :: y) :: ys

/-- `PosixPath(source).name`: the component after the last slash. -/
def fileNameOf (source : String) : String :=
  String.mk ((splitChars '/' source.data).getLastD [])

/-- One similarity-search hit: `page_content` plus the `source` metadata
(`result.metadata.get('source', '')`). -/
structure DocResult where
  page_content : String
  source : String
deriving DecidableEq, Repr

/-- The filter loop of `document_retrieval`: keep hits whose source file
name is enabled, stopping once three are collected (the `break`). -/
def filterResultsAux (enabled : List String) (acc : List DocResult) :
    List DocResult → List DocResult
  | [] => acc
  | r :: rs =>
    let acc2 := if r.source ≠ "" && enabled.contains (fileNameOf r.source)
      then acc ++ [r] else acc
    if 3 ≤ acc2.length then acc2 else filterResultsAux enabled acc2 rs

/-- `filtered_results` for a list of raw hits. -/
def filterResults (enabled : List String) (raw : List DocResult) : List DocResult :=
  filterResultsAux enabled [] raw

/-- The rendering of one kept section: content preview capped at 800
characters with an ellipsis, plus the source file name when present. -/
def renderSection (i : Nat) (r : DocResult) : String :=
  "📄 Section " ++ toString (i + 1) ++ ":\n" ++
  String.mk (r.page_content.data.take 800) ++ "..." ++
  (if r.source ≠ "" then "\n📍 Source: " ++ fileNameOf r.source else "")

/-- The combined retrieved-content string. -/
def renderResults (filtered : List DocResult) : String :=
  "Found " ++ toString filtered.length ++
  " relevant document sections from enabled sources:\n\n" ++
  String.intercalate "\n\n" (filtered.enum.map fun p => renderSection p.1 p.2)

/-- `document_retrieval` after its unguarded steps succeeded:
`docCountRes` models the guarded `store.index.ntotal` access, `enabled_docs`
a successfully read `get_enabled_documents()` list, and `searchRes` the
guarded `similarity_search` call.  Every branch here returns a string; the
guarded calls convert exceptions to messages.  The unguarded store
initialization and config read are added by `document_retrieval_full`. -/
def document_retrieval (docCountRes : Except String Nat)
    (enabled_docs : List String) (searchRes : Except String (List DocResult))
    (query : String) : Except String String :=
  match docCountRes with
  | Except.error _ =>
    Except.ok "Document store is not properly initialized. Please run the document ingestion process."
  | Except.ok docCount =>
    if docCount = 0 then
      Except.ok "No documents have been ingested yet. Please run the document ingestion process first."
    else if enabled_docs.isEmpty then
      Except.ok "No documents are currently enabled for searching. Please enable documents in the file management panel."
    else
      match searchRes with
      | Except.error e => Except.ok ("Error performing document search: " ++ e)
      | Except.ok rawResults =>
        if rawResults.isEmpty then
          Except.ok ("No relevant documents found for query: '" ++ query ++ "'")
        else
          let filtered := filterResults enabled_docs rawResults
          if filtered.isEmpty then
            Except.ok ("No results found in enabled documents for query: '" ++ query ++
              "'. Try enabling more documents or check the query.")
          else
            Except.ok (renderResults filtered)

/-- What `subprocess.run([...python, -c, code], timeout=30)` did. -/
inductive ExecOutcome where
  | finished (returncode : Int) (stdout stderr : String)
  | timedOut
deriving Repr

/-- The natural-language heuristic of `run_code`: does the stripped input
start with one of the Python keywords the tool treats as real code. -/
def looksLikeCode (code : String) : Bool :=
  ["import", "from", "def", "class", "print", "#", "if", "for", "while", "try"].any
    fun kw => code.trim.startsWith kw

/-- Markdown fence stripping for generated Python (`split("```")[1]`, drop
a leading `python`, `strip()`). -/
def stripPyFences (s : String) : String :=
  if s.startsWith "```" then
    let part := ((s.splitOn "```").getD 1 "")
    let part := if part.startsWith "python" then part.drop 6 else part
    part.trim
  else s

/-- The two exception kinds `run_code` distinguishes:
`subprocess.TimeoutExpired`, and every other `Exception`. -/
inductive CodeExc where
  | timeout
  | exc (msg : String)
deriving DecidableEq, Repr

/-- The body of `run_code`'s `try` block: possibly generate code from
natural language via the LLM (`genCode`, which may raise), then execute it
with a 30 second bound. -/
def runCodeTryBody (genCode : String → Except String String)
    (exec : String → ExecOutcome) (code : String) : Except CodeExc String := do
  let codeToExecute ←
    if looksLikeCode code then pure code.trim
    else
      match genCode code with
      | Except.ok raw => pure (stripPyFences raw.trim)
      | Except.error e => Except.error (CodeExc.exc e)
  match exec codeToExecute with
  | ExecOutcome.finished rc out err =>
    if rc = 0 then
      let output := if out.trim = "" then "Code executed successfully (no output)." else out.trim
      pure ("Code executed successfully.\n\nOutput:\n" ++ output)
    else
      pure ("Error executing code:\n" ++ err.trim)
  | ExecOutcome.timedOut => Except.error CodeExc.timeout

/-- `run_code`: the `try` body's exceptions are converted to returned error
strings by the two `except` handlers. -/
def run_code (genCode : String → Except String String)
    (exec : String → ExecOutcome) (code : String) : Except String String :=
  match runCodeTryBody genCode exec code with
  | Except.ok s => Except.ok s
  | Except.error CodeExc.timeout =>
    Except.ok "Error: Code execution timed out (exceeded 30 seconds)."
  | Except.error (CodeExc.exc e) =>
    Except.ok ("Error executing code: " ++ e)

/-- The complete `sql_retrieval` adapter call path: line 71's
`is_database_enabled(database)` reads `config["enabled_databases"]` before
the `try` block, so an exception there (for example a `KeyError` on a
structurally malformed `tools/config.json`, which `load_config`'s handler
does not cover) propagates to the caller.  `enabledRes` models that read:
the enabled list on success, a raised exception otherwise. -/
def sql_retrieval_full (enabledRes : Except String (List String))
    (getDb : String → Except String Unit)
    (dbRun : String → String → Except String String)
    (genSql : String → String → Except String String)
    (query database : String) : Except String String := do
  let enabled_databases ← enabledRes
  sql_retrieval enabled_databases getDb dbRun genSql query database

/-- The complete `document_retrieval` adapter call path, in source order:
line 66's `_initialize_vector_store()` is outside any `try`, and its
`FAISS.from_texts([""], embeddings)` fallback is a live embeddings-API
call, so a raise there propagates (`storeInit`); the `store.index.ntotal`
access is guarded (`docCountRes`); line 77's `get_enabled_documents()`
reads `config["enabled_documents"]` outside any `try`, so a raise there
propagates too (`enabledRes`); the rest is `document_retrieval`. -/
def document_retrieval_full (storeInit : Except String Unit)
    (docCountRes : Except String Nat)
    (enabledRes : Except String (List String))
    (searchRes : Except String (List DocResult))
    (query : String) : Except String String := do
  let _ ← storeInit
  match docCountRes with
  | Except.error _ =>
    pure "Document store is not properly initialized. Please run the document ingestion process."
  | Except.ok docCount =>
    if docCount = 0 then
      pure "No documents have been ingested yet. Please run the document ingestion process first."
    else do
      let enabled_docs ← enabledRes
      document_retrieval (Except.ok docCount) enabled_docs searchRes query

/-! ## Tool-usage extraction (`run_agent_query_with_tools` in
`langgraph_main.py`) -/

/-- One entry of an `AIMessage.tool_calls` list. -/
structure ToolCall where
  name : String
  id : String
  args : List (String × String)
deriving DecidableEq, Repr

/-- One message of the agent's final message list. -/
inductive AgentMsg where
  | human (content : String)
  | ai (content : String) (tool_calls : List ToolCall)
  | tool (content : String) (tool_call_id : String)
  | system (content : String)
deriving DecidableEq, Repr

/-- `content[:500] + "..." if len(content) > 500 else content`
(string slicing modelled on the character list). -/
def truncateResp (content : String) : String :=
  if 500 < content.length then String.mk (content.data.take 500) ++ "..." else content

/-- The inner scan for the tool response: the first `ToolMessage` after the
calling message whose `tool_call_id` matches. -/
def findToolMessage : List AgentMsg → String → Option String
  | [], _ => none
  | AgentMsg.tool c tcid :: rest, callId =>
    if tcid = callId then some c else findToolMessage rest callId
  | _ :: rest, callId => findToolMessage rest callId

/-- The `tool_info` dict built for one tool call at message index `i`:
status `called` without a response, upgraded to `completed` with a
truncated response when a matching `ToolMessage` follows. -/
def recordForCall (msgs : List AgentMsg) (i : Nat) (now : String) (tc : ToolCall) :
    ToolRecord :=
  match findToolMessage (msgs.drop (i + 1)) tc.id with
  | some c =>
    { tool_name := tc.name, call_id := some tc.id, arguments := tc.args,
      timestamp := some now, status := "completed", response := some (truncateResp c) }
  | none =>
    { tool_name := tc.name, call_id := some tc.id, arguments := tc.args,
      timestamp := some now, status := "called", response := none }

/-- The extraction loop: every `AIMessage` with a nonempty `tool_calls`
list contributes one record per call, in message order. -/
def extractTools (msgs : List AgentMsg) (now : String) : List ToolEntry :=
  msgs.enum.flatMap fun p =>
    match p.2 with
    | AgentMsg.ai _ tcs =>
      if tcs.isEmpty then [] else tcs.map fun tc => ToolEntry.record (recordForCall msgs p.1 now tc)
    | _ => []

/-- `msg.__class__.__name__` for the `message_flow` log. -/
def msgClassName : AgentMsg → String
  | AgentMsg.human _ => "HumanMessage"
  | AgentMsg.ai _ _ => "AIMessage"
  | AgentMsg.tool _ _ => "ToolMessage"
  | AgentMsg.system _ => "SystemMessage"

/-- `len(msg.content)`. -/
def msgContentLength : AgentMsg → Nat
  | AgentMsg.human c => c.length
  | AgentMsg.ai c _ => c.length
  | AgentMsg.tool c _ => c.length
  | AgentMsg.system c => c.length

/-- `bool(getattr(msg, 'tool_calls', None))`. -/
def msgHasToolCalls : AgentMsg → Bool
  | AgentMsg.ai _ tcs => !tcs.isEmpty
  | _ => false

/-- `len(getattr(msg, 'tool_calls', []))` guarded by `hasattr`. -/
def msgToolCallCount : AgentMsg → Nat
  | AgentMsg.ai _ tcs => tcs.length
  | _ => 0

/-- The `execution_overview` entry's `message_flow` list. -/
def messageFlow (msgs : List AgentMsg) : List (Nat × String × Nat × Bool × Nat) :=
  msgs.enum.map fun p =>
    (p.1, msgClassName p.2, msgContentLength p.2, msgHasToolCalls p.2, msgToolCallCount p.2)

/-- `final_response or "No response generated"`: the last message's content
when it is a (truthy) `AIMessage`, the fixed fallback otherwise. -/
def finalResponseOf (msgs : List AgentMsg) : String :=
  match msgs.getLast? with
  | some (AgentMsg.ai c _) => if c = "" then "No response generated" else c
  | _ => "No response generated"

/-- `run_agent_query_with_tools`: on success returns the final response,
the extracted records and the `execution_start` / `agent_execution` /
`execution_overview` log entries; an exception from `agent_instance.invoke`
is caught and returned as an error string plus an `error` log entry.
`invokeRes` models the invoke call, `now` every `datetime.now().isoformat()`
reading and `resultType` the `type(result).__name__` string. -/
def run_agent_query_with_tools (query : String)
    (invokeRes : Except String (List AgentMsg)) (now resultType : String) :
    String × List ToolEntry × List LogEntry :=
  let startEntry : LogEntry :=
    [("type", JVal.s "execution_start"), ("timestamp", JVal.s now),
     ("query", JVal.s query), ("agent_type", JVal.s "custom_agent")]
  match invokeRes with
  | Except.ok finalMessages =>
    let agentEntry : LogEntry :=
      [("type", JVal.s "agent_execution"), ("timestamp", JVal.s now),
       ("input_messages", JVal.n 1), ("result_type", JVal.s resultType)]
    let overviewEntry : LogEntry :=
      [("type", JVal.s "execution_overview"), ("step", JVal.n 1),
       ("total_messages", JVal.n finalMessages.length), ("timestamp", JVal.s now),
       ("message_flow", JVal.flow (messageFlow finalMessages))]
    (finalResponseOf finalMessages, extractTools finalMessages now,
      [startEntry, agentEntry, overviewEntry])
  | Except.error e =>
    let errorMsg := "Error executing agent query: " ++ e
    (errorMsg, [],
      [startEntry,
       [("type", JVal.s "error"), ("step", JVal.n 2), ("error", JVal.s errorMsg),
        ("timestamp", JVal.s now)]])

/-! ## Session map and conversation counter (`create_new_conversation` and
`load_conversations_into_session` in `streamlit_app.py`) -/

/-- Python `str.strip()` whitespace. -/
def isPySpace (c : Char) : Bool :=
  c = ' ' || c = '\t' || c = '\n' || c = '\r' || c = '\x0b' || c = '\x0c'

/-- `strip()` on a character list. -/
def pyStripChars (l : List Char) : List Char :=
  ((l.dropWhile isPySpace).reverse.dropWhile isPySpace).reverse

/-- The value of a nonempty all-digit character list, `none` otherwise. -/
def digitsVal? (ds : List Char) : Option Nat :=
  if ds.isEmpty then none
  else if ds.all Char.isDigit then
    some (ds.foldl (fun acc c => acc * 10 + (c.toNat - 48)) 0)
  else none

/-- Python `int(s)` on a string's characters: surrounding whitespace is
stripped, an optional sign precedes the decimal digits; anything else
raises, modelled as `none`.  (Unicode digits and digit-group underscores,
which CPython also accepts, are not modelled.) -/
def pyIntChars? (l : List Char) : Option Int :=
  match pyStripChars l with
  | [] => none
  | c :: ds =>
    if c = '-' then (digitsVal? ds).map fun v => -(v : Int)
    else if c = '+' then (digitsVal? ds).map fun v => (v : Int)
    else (digitsVal? (c :: ds)).map fun v => (v : Int)

/-- `int(conv_id.split("_")[1])` with `IndexError`/`ValueError` mapped to
`none` (the `except` clause `continue`s). -/
def parse_numeric_id (conv_id : String) : Option Int :=
  match (splitChars '_' conv_id.data).get? 1 with
  | some part => pyIntChars? part
  | none => none

/-- The decimal digit characters. -/
def digitChar : Nat → Char
  | 0 => '0' | 1 => '1' | 2 => '2' | 3 => '3' | 4 => '4'
  | 5 => '5' | 6 => '6' | 7 => '7' | 8 => '8' | 9 => '9'
  | _ => '?'

/-- Decimal digits of `n`, least significant first, with explicit fuel so
the definition is structural (the fuel `n + 1` always suffices). -/
def natToRevDigits : Nat → Nat → List Char
  | 0, _ => []
  | fuel + 1, n =>
    if n < 10 then [digitChar n]
    else digitChar (n % 10) :: natToRevDigits fuel (n / 10)

/-- Decimal rendering of a natural number's characters. -/
def natReprChars (n : Nat) : List Char := (natToRevDigits (n + 1) n).reverse

/-- Python `str(n)` for an int (as used by `f"conv_{counter}"`): decimal
digits with a leading minus sign for negatives. -/
def intReprStr (n : Int) : String :=
  if n < 0 then String.mk ('-' :: natReprChars (-n).toNat)
  else String.mk (natReprChars n.toNat)

/-- A conversation as freshly created: empty lists plus the creation time. -/
def emptyConversation (createdAt : String) : Conversation :=
  { messages := [], tools_used := [], execution_logs := [], created_at := createdAt }

/-- `st.session_state.conversations` plus `st.session_state.conversation_counter`. -/
structure SessionState where
  conversations : List (String × Conversation)
  conversation_counter : Int
deriving Repr

/-- Python dict assignment `m[k] = v`: an existing key keeps its position,
a new key is appended. -/
def dictInsert (m : List (String × Conversation)) (k : String) (v : Conversation) :
    List (String × Conversation) :=
  if m.any (fun p => p.1 = k) then m.map fun p => if p.1 = k then (k, v) else p
  else m ++ [(k, v)]

/-- Python `base.update(upd)`: existing keys keep their position with the
new value; new keys are appended in `upd` order. -/
def dictUpdate (base upd : List (String × Conversation)) : List (String × Conversation) :=
  (base.map fun p =>
    match upd.find? (fun q => q.1 = p.1) with
    | some q => (p.1, q.2)
    | none => p) ++
  upd.filter fun q => !(base.any fun p => p.1 = q.1)

/-- `create_new_conversation`: builds `f"conv_{counter}"`, stores a fresh
conversation under it and increments the counter.  Returns the new state
and the id. -/
def create_new_conversation (st : SessionState) (createdAt : String) :
    SessionState × String :=
  let convId := "conv_" ++ intReprStr st.conversation_counter
  ({ conversations := dictInsert st.conversations convId (emptyConversation createdAt),
     conversation_counter := st.conversation_counter + 1 }, convId)

/-- `load_conversations_into_session` (the map/counter part): merges the
loaded conversations into the session map and bumps the counter past the
largest parsed numeric id.  The selection of `current_conversation_id`,
which touches neither the map nor the counter, is not modelled. -/
def load_conversations_into_session (st : SessionState)
    (loaded : List (String × Conversation)) : SessionState :=
  if loaded.isEmpty then st
  else
    let numericIds := loaded.filterMap fun p => parse_numeric_id p.1
    { conversations := dictUpdate st.conversations loaded
      conversation_counter :=
        match numericIds with
        | [] => st.conversation_counter
        | x :: xs => max st.conversation_counter (xs.foldl max x + 1) }

/-! ## Supporting lemmas -/

theorem mem_filterResultsAux (enabled : List String) :
    ∀ (raw acc : List DocResult),
      (∀ r ∈ acc, fileNameOf r.source ∈ enabled) →
      ∀ r ∈ filterResultsAux enabled acc raw, fileNameOf r.source ∈ enabled := by
  intro raw
  induction raw with
  | nil => intro acc hacc r hr; exact hacc r hr
  | cons x xs ih =>
    intro acc hacc r hr
    simp only [filterResultsAux] at hr
    set acc2 := if x.source ≠ "" && enabled.contains (fileNameOf x.source)
      then acc ++ [x] else acc with hacc2
    have hacc2mem : ∀ s ∈ acc2, fileNameOf s.source ∈ enabled := by
      intro s hs
      rw [hacc2] at hs
      by_cases hc : x.source ≠ "" && enabled.contains (fileNameOf x.source)
      · rw [if_pos hc] at hs
        rcases List.mem_append.mp hs with h1 | h2
        · exact hacc s h1
        · have hx : s = x := by simpa using h2
          subst hx
          have := (Bool.and_eq_true _ _).mp hc
          exact List.mem_of_elem_eq_true this.2
      · rw [if_neg hc] at hs
        exact hacc s hs
    by_cases hlen : 3 ≤ acc2.length
    · rw [if_pos hlen] at hr
      exact hacc2mem r hr
    · rw [if_neg hlen] at hr
      exact ih acc2 hacc2mem r hr

theorem mem_insertStableStr {α : Type} (key : α → String) (x a : α) :
    ∀ l : List α, a ∈ insertStableStr key x l ↔ a = x ∨ a ∈ l := by
  intro l
  induction l with
  | nil => simp [insertStableStr]
  | cons y ys ih =>
    simp only [insertStableStr]
    split
    · simp only [List.mem_cons, ih]
      tauto
    · simp only [List.mem_cons]

theorem mem_pySortByStrKey_aux {α : Type} (key : α → String) (a : α) :
    ∀ (l acc : List α),
      a ∈ l.foldl (fun acc x => insertStableStr key x acc) acc ↔ a ∈ acc ∨ a ∈ l := by
  intro l
  induction l with
  | nil => simp
  | cons x xs ih =>
    intro acc
    simp only [List.foldl_cons, ih, mem_insertStableStr, List.mem_cons]
    tauto

theorem mem_build_log_signature (p : String × JVal) (e : LogEntry) :
    p ∈ build_log_signature e ↔ p ∈ e := by
  simp [build_log_signature, pySortByStrKey, mem_pySortByStrKey_aux]

theorem sig_mem_or_exists_dedupNewLogs :
    ∀ (nw : List LogEntry) (seen : List (List (String × JVal))) (e : LogEntry),
      e ∈ nw →
      build_log_signature e ∈ seen ∨
        ∃ e2 ∈ dedupNewLogs seen nw, build_log_signature e2 = build_log_signature e := by
  intro nw
  induction nw with
  | nil => intro seen e he; cases he
  | cons x xs ih =>
    intro seen e he
    simp only [dedupNewLogs]
    rcases List.mem_cons.mp he with hx | hxs
    · subst hx
      by_cases h : build_log_signature e ∈ seen
      · exact Or.inl h
      · refine Or.inr ⟨e, ?_, rfl⟩
        rw [if_neg h]
        exact List.mem_cons_self _ _
    · by_cases h : build_log_signature x ∈ seen
      · rw [if_pos h]
        exact ih seen e hxs
      · rw [if_neg h]
        rcases ih (build_log_signature x :: seen) e hxs with hin | ⟨e2, he2, hsig⟩
        · rcases List.mem_cons.mp hin with heq | hseen
          · exact Or.inr ⟨x, List.mem_cons_self _ _, heq.symm⟩
          · exact Or.inl hseen
        · exact Or.inr ⟨e2, List.mem_cons_of_mem _ he2, hsig⟩

theorem exists_sig_mem_mergeLogs (ex nw : List LogEntry) (e : LogEntry) (he : e ∈ nw) :
    ∃ e2 ∈ mergeLogs ex nw, build_log_signature e2 = build_log_signature e := by
  rcases sig_mem_or_exists_dedupNewLogs nw (ex.map build_log_signature) e he with h | ⟨e2, he2, hs⟩
  · rcases List.mem_map.mp h with ⟨e2, he2, hs⟩
    exact ⟨e2, List.mem_append_left _ he2, hs⟩
  · exact ⟨e2, List.mem_append_right _ he2, hs⟩

theorem pair_mem_of_sig_eq {p : String × JVal} {e e2 : LogEntry}
    (hs : build_log_signature e2 = build_log_signature e) (hp : p ∈ e) : p ∈ e2 := by
  rw [← mem_build_log_signature, hs, mem_build_log_signature]
  exact hp

theorem dedupNewLogs_eq_nil :
    ∀ (nw : List LogEntry) (seen seen2 : List (List (String × JVal))),
      (∀ s ∈ seen, s ∈ seen2) →
      (∀ e ∈ dedupNewLogs seen nw, build_log_signature e ∈ seen2) →
      dedupNewLogs seen2 nw = [] := by
  intro nw
  induction nw with
  | nil => intro seen seen2 _ _; rfl
  | cons x xs ih =>
    intro seen seen2 h1 h2
    simp only [dedupNewLogs]
    by_cases h : build_log_signature x ∈ seen
    · rw [if_pos (h1 _ h)]
      refine ih seen seen2 h1 ?_
      intro e he
      refine h2 e ?_
      simpa only [dedupNewLogs, if_pos h] using he
    · have hkept : dedupNewLogs seen (x :: xs) =
          x :: dedupNewLogs (build_log_signature x :: seen) xs := by
        simp only [dedupNewLogs, if_neg h]
      have hx2 : build_log_signature x ∈ seen2 := by
        refine h2 x ?_
        rw [hkept]; exact List.mem_cons_self _ _
      rw [if_pos hx2]
      refine ih (build_log_signature x :: seen) seen2 ?_ ?_
      · intro s hs
        rcases List.mem_cons.mp hs with heq | hin
        · subst heq; exact hx2
        · exact h1 _ hin
      · intro e he
        refine h2 e ?_
        rw [hkept]; exact List.mem_cons_of_mem _ he

theorem mergeLogs_remerge (ex nw : List LogEntry) :
    mergeLogs (mergeLogs ex nw) nw = mergeLogs ex nw := by
  unfold mergeLogs
  have h := dedupNewLogs_eq_nil nw (ex.map build_log_signature)
    ((ex ++ dedupNewLogs (ex.map build_log_signature) nw).map build_log_signature)
    (by intro s hs; rw [List.map_append]; exact List.mem_append_left _ hs)
    (by intro e he; rw [List.map_append]; exact List.mem_append_right _ (List.mem_map_of_mem _ he))
  rw [h, List.append_nil]

theorem truthyId_fillTimestamp (r : ToolRecord) (now : String) :
    truthyId (fillTimestamp r now).call_id = truthyId r.call_id := by
  unfold fillTimestamp
  cases r.timestamp with
  | none => rfl
  | some s =>
    dsimp only
    split <;> rfl

theorem dedupNewTools_eq_nil :
    ∀ (nw : List ToolEntry) (ids seen : List String) (now now2 : String),
      (∀ r, ToolEntry.record r ∈ nw → truthyId r.call_id ≠ none) →
      (∀ c ∈ ids, c ∈ seen) →
      (∀ c ∈ existingToolIds (dedupNewTools ids now nw), c ∈ seen) →
      dedupNewTools seen now2 nw = [] := by
  intro nw
  induction nw with
  | nil => intro ids seen now now2 _ _ _; rfl
  | cons x xs ih =>
    intro ids seen now now2 h1 h2 h3
    cases x with
    | raw s =>
      simp only [dedupNewTools] at h3 ⊢
      exact ih ids seen now now2 (fun r hr => h1 r (List.mem_cons_of_mem _ hr)) h2 h3
    | record r =>
      have hc : ∃ c, truthyId r.call_id = some c := by
        cases h : truthyId r.call_id with
        | none => exact absurd h (h1 r (List.mem_cons_self _ _))
        | some c => exact ⟨c, rfl⟩
      rcases hc with ⟨c, hc⟩
      by_cases hin : c ∈ ids
      · have hcseen : c ∈ seen := h2 c hin
        simp only [dedupNewTools, hc, hin, if_pos, hcseen] at h3 ⊢
        exact ih ids seen now now2 (fun r2 hr => h1 r2 (List.mem_cons_of_mem _ hr)) h2 h3
      · have hkept : dedupNewTools ids now (ToolEntry.record r :: xs) =
            ToolEntry.record (fillTimestamp r now) :: dedupNewTools (c :: ids) now xs := by
          simp [dedupNewTools, hc, hin]
        have hids : existingToolIds (dedupNewTools ids now (ToolEntry.record r :: xs)) =
            c :: existingToolIds (dedupNewTools (c :: ids) now xs) := by
          rw [hkept]
          simp only [existingToolIds, List.filterMap_cons, truthyId_fillTimestamp, hc]
        have hcseen : c ∈ seen := by
          refine h3 c ?_
          rw [hids]; exact List.mem_cons_self _ _
        simp only [dedupNewTools, hc, hcseen, if_pos]
        refine ih (c :: ids) seen now now2
          (fun r2 hr => h1 r2 (List.mem_cons_of_mem _ hr)) ?_ ?_
        · intro c2 hc2
          rcases List.mem_cons.mp hc2 with heq | hin2
          · subst heq; exact hcseen
          · exact h2 _ hin2
        · intro c2 hc2
          refine h3 c2 ?_
          rw [hids]; exact List.mem_cons_of_mem _ hc2

theorem mergeTools_remerge (ex nw : List ToolEntry) (now now2 : String)
    (h : ∀ r, ToolEntry.record r ∈ nw → truthyId r.call_id ≠ none) :
    mergeTools (mergeTools ex nw now) nw now2 = mergeTools ex nw now := by
  unfold mergeTools
  have hids : existingToolIds (ex ++ dedupNewTools (existingToolIds ex) now nw) =
      existingToolIds ex ++ existingToolIds (dedupNewTools (existingToolIds ex) now nw) := by
    simp [existingToolIds, List.filterMap_append]
  rw [hids]
  have hnil := dedupNewTools_eq_nil nw (existingToolIds ex)
    (existingToolIds ex ++ existingToolIds (dedupNewTools (existingToolIds ex) now nw))
    now now2 h
    (fun c hc => List.mem_append_left _ hc)
    (fun c hc => List.mem_append_right _ hc)
  rw [hnil, List.append_nil]

theorem handleTurn_messages (conv : Conversation) (t : ToolToggles) (prompt : String)
    (o : TurnOutcome) (timing : TimingInfo) (now : String) :
    (handleTurn conv t prompt o timing now).messages =
      conv.messages ++ [Message.human prompt, Message.ai (turnBranch t o).1] := by
  simp [handleTurn]

/-- The user/assistant message pairs a list of turns contributes. -/
def sessionMessages (inputs : List TurnInput) : List Message :=
  inputs.flatMap fun t =>
    [Message.human t.prompt, Message.ai (turnBranch t.toggles t.outcome).1]

theorem processTurns_messages :
    ∀ (inputs : List TurnInput) (conv : Conversation),
      (processTurns conv inputs).messages = conv.messages ++ sessionMessages inputs := by
  intro inputs
  induction inputs with
  | nil => intro conv; simp [processTurns, sessionMessages]
  | cons t ts ih =>
    intro conv
    simp only [processTurns, ih, handleTurn_messages, sessionMessages, List.flatMap_cons,
      List.append_assoc]

theorem sessionMessages_length (inputs : List TurnInput) :
    (sessionMessages inputs).length = 2 * inputs.length := by
  induction inputs with
  | nil => rfl
  | cons t ts ih =>
    simp only [sessionMessages, List.flatMap_cons] at ih ⊢
    simp [ih, List.length_cons, Nat.mul_add, Nat.mul_succ]

theorem sessionMessages_alternating (inputs : List TurnInput) :
    userAssistantAlternating (sessionMessages inputs) = true := by
  induction inputs with
  | nil => rfl
  | cons t ts ih =>
    simp only [sessionMessages, List.flatMap_cons]
    exact ih

/-! ## Claim theorems -/

/-- C6: serializing a conversation (messages of roles human/ai/system, tool
records, log entries) to the persisted record shape and then deserializing
yields the same conversation: same messages in the same order, same tool
records, same log entries. -/
theorem C6_round_trip_persistence (conv_id : String) (c : Conversation) :
    deserialize_conversation (serialize_conversation conv_id c) = c := by
  cases c with
  | mk msgs tools logs created =>
    simp only [serialize_conversation, deserialize_conversation, List.map_map]
    congr 1
    exact List.map_congr_left (fun m _ => deserialize_serialize_message m) |>.trans
      (List.map_id msgs)

/-- C3: whenever document_retrieval, sql_retrieval and search_web are all
enabled, the priority ordering computed for the turn is exactly document,
sql, web, independent of the query (the computation never reads the query)
and of the run_code toggle. -/
theorem C3_priority_order (t : ToolToggles)
    (hdoc : t.document_retrieval = true) (hsql : t.sql_retrieval = true)
    (hweb : t.search_web = true) :
    priority_tools t =
      [ { name := "document_retrieval", display_name := "Document Retrieval", icon := "📄" },
        { name := "sql_retrieval", display_name := "SQL Query", icon := "🗄️" },
        { name := "search_web", display_name := "Search Web", icon := "🔍" } ] := by
  rcases t with ⟨sw, dr, sq, rc⟩
  simp only at hdoc hsql hweb
  subst hdoc; subst hsql; subst hweb
  cases rc <;> decide

theorem C3_priority_order_witness :
    priority_tools ⟨true, true, true, true⟩ =
      [ { name := "document_retrieval", display_name := "Document Retrieval", icon := "📄" },
        { name := "sql_retrieval", display_name := "SQL Query", icon := "🗄️" },
        { name := "search_web", display_name := "Search Web", icon := "🔍" } ] :=
  C3_priority_order ⟨true, true, true, true⟩ rfl rfl rfl

/-- C5 counterexample: the claim says every one of the four adapters
converts adapter-level failures into returned error strings, but
`search_web` wraps nothing: when the underlying Serper call raises, the
exception propagates to the caller unchanged. -/
theorem C5_counterexample_search_web_raises :
    search_web (fun _ => Except.error "Serper API unreachable") "capital of France"
        = Except.error "Serper API unreachable"
    ∧ (search_web (fun _ => Except.error "Serper API unreachable")
        "capital of France").isOk = false :=
  ⟨rfl, rfl⟩

theorem sql_retrieval_isOk (enabled_databases : List String) (getDb : String → Except String Unit)
    (dbRun genSql : String → String → Except String String) (query database : String) :
    (sql_retrieval enabled_databases getDb dbRun genSql query database).isOk = true := by
  unfold sql_retrieval
  by_cases h : database ∈ enabled_databases
  · rw [if_pos h]
    cases sqlTryBody getDb dbRun genSql query database <;> rfl
  · rw [if_neg h]
    rfl

theorem document_retrieval_isOk (docCountRes : Except String Nat)
    (enabled_docs : List String) (searchRes : Except String (List DocResult))
    (query : String) :
    (document_retrieval docCountRes enabled_docs searchRes query).isOk = true := by
  unfold document_retrieval
  cases docCountRes with
  | error e => rfl
  | ok n =>
    dsimp only
    split
    · rfl
    · split
      · rfl
      · cases searchRes with
        | error e => rfl
        | ok raw =>
          dsimp only
          split
          · rfl
          · split
            · rfl
            · rfl

/-- C5 amended: run_code converts every adapter-level failure (code
generation, execution, timeout) into a returned error string; sql_retrieval
and document_retrieval do the same for every failure raised inside their
try-guarded bodies (database lookup, SQL generation and execution, store
count access, similarity search), but their unguarded steps propagate:
sql_retrieval's enabled-check config read runs before its `try`, and
document_retrieval's vector-store initialization and enabled-documents
config read run outside any `try`; search_web wraps nothing at all, so its
adapter exceptions propagate (the counterexample). -/
theorem C5_amended_failure_containment :
    (∀ genCode exec (code : String), (run_code genCode exec code).isOk = true)
    ∧ (∀ (enabled_databases : List String) getDb dbRun genSql (query database : String),
      (sql_retrieval_full (Except.ok enabled_databases) getDb dbRun genSql
        query database).isOk = true)
    ∧ (∀ (e : String) getDb dbRun genSql (query database : String),
      sql_retrieval_full (Except.error e) getDb dbRun genSql query database =
        Except.error e)
    ∧ (∀ (docCountRes : Except String Nat) (enabled_docs : List String) searchRes
        (query : String),
      (document_retrieval_full (Except.ok ()) docCountRes (Except.ok enabled_docs)
        searchRes query).isOk = true)
    ∧ (∀ (e : String) docCountRes enabledRes searchRes (query : String),
      document_retrieval_full (Except.error e) docCountRes enabledRes searchRes query =
        Except.error e)
    ∧ (∀ (e : String) (docCount : Nat) searchRes (query : String), docCount ≠ 0 →
      document_retrieval_full (Except.ok ()) (Except.ok docCount) (Except.error e)
        searchRes query = Except.error e) := by
  refine ⟨?_, ?_, ?_, ?_, ?_, ?_⟩
  · intro g e c
    unfold run_code
    cases h : runCodeTryBody g e c with
    | ok s => rfl
    | error exc => cases exc <;> rfl
  · intro dbs getDb dbRun genSql q db
    exact sql_retrieval_isOk dbs getDb dbRun genSql q db
  · intro e getDb dbRun genSql q db
    rfl
  · intro dc en sr q
    unfold document_retrieval_full
    cases dc with
    | error e => rfl
    | ok n =>
      dsimp only
      by_cases h : n = 0
      · rw [if_pos h]
        rfl
      · rw [if_neg h]
        exact document_retrieval_isOk (Except.ok n) en sr q
  · intro e dc enr sr q
    rfl
  · intro e n sr q h
    unfold document_retrieval_full
    dsimp only
    rw [if_neg h]
    rfl

theorem C5_amended_failure_containment_witness :
    (run_code (fun _ => Except.ok "print(1)")
      (fun _ => ExecOutcome.finished 0 "1" "") "compute one").isOk = true
    ∧ (sql_retrieval_full (Except.ok ["chinook"]) (fun _ => Except.ok ())
        (fun _ _ => Except.error "no such table") (fun _ _ => Except.ok "")
        "SELECT 1" "chinook").isOk = true
    ∧ sql_retrieval_full (Except.error "KeyError: enabled_databases")
        (fun _ => Except.ok ()) (fun _ _ => Except.ok "") (fun _ _ => Except.ok "")
        "SELECT 1" "chinook" = Except.error "KeyError: enabled_databases"
    ∧ (document_retrieval_full (Except.ok ()) (Except.error "index missing")
        (Except.ok ["a.txt"]) (Except.ok []) "q").isOk = true
    ∧ document_retrieval_full (Except.error "embeddings API unreachable")
        (Except.ok 4) (Except.ok ["a.txt"]) (Except.ok []) "q" =
      Except.error "embeddings API unreachable"
    ∧ ((4 : Nat) ≠ 0
      ∧ document_retrieval_full (Except.ok ()) (Except.ok 4)
          (Except.error "KeyError: enabled_documents") (Except.ok []) "q" =
        Except.error "KeyError: enabled_documents") :=
  ⟨C5_amended_failure_containment.1 _ _ "compute one",
   C5_amended_failure_containment.2.1 ["chinook"] _ _ _ "SELECT 1" "chinook",
   C5_amended_failure_containment.2.2.1 "KeyError: enabled_databases" _ _ _
     "SELECT 1" "chinook",
   C5_amended_failure_containment.2.2.2.1 (Except.error "index missing") ["a.txt"]
     (Except.ok []) "q",
   C5_amended_failure_containment.2.2.2.2.1 "embeddings API unreachable"
     (Except.ok 4) (Except.ok ["a.txt"]) (Except.ok []) "q",
   ⟨by decide, C5_amended_failure_containment.2.2.2.2.2 "KeyError: enabled_documents"
     4 (Except.ok []) "q" (by decide)⟩⟩

/-- C9: sql_retrieval on a database absent from the enabled_databases list
returns the not-enabled message without consulting the database oracles;
document_retrieval keeps only hits whose source file name is enabled,
returns the no-enabled-documents message when the enabled list is empty,
the no-results message when the filter removes every hit, and otherwise
renders exactly the filtered hits. -/
theorem C9_enabled_source_gating :
    (∀ (enabled_databases : List String) getDb dbRun genSql (query database : String),
      database ∉ enabled_databases →
      sql_retrieval enabled_databases getDb dbRun genSql query database =
        Except.ok ("Database '" ++ database ++
          "' is not enabled for access. Please enable it in the file management panel."))
    ∧ (∀ (enabled : List String) (raw : List DocResult) (r : DocResult),
      r ∈ filterResults enabled raw → fileNameOf r.source ∈ enabled)
    ∧ (∀ (docCount : Nat) searchRes (query : String),
      docCount ≠ 0 →
      document_retrieval (Except.ok docCount) [] searchRes query =
        Except.ok "No documents are currently enabled for searching. Please enable documents in the file management panel.")
    ∧ (∀ (docCount : Nat) (enabled : List String) (raw : List DocResult) (query : String),
      docCount ≠ 0 → enabled ≠ [] → raw ≠ [] → filterResults enabled raw = [] →
      document_retrieval (Except.ok docCount) enabled (Except.ok raw) query =
        Except.ok ("No results found in enabled documents for query: '" ++ query ++
          "'. Try enabling more documents or check the query."))
    ∧ (∀ (docCount : Nat) (enabled : List String) (raw : List DocResult) (query : String),
      docCount ≠ 0 → enabled ≠ [] → raw ≠ [] → filterResults enabled raw ≠ [] →
      document_retrieval (Except.ok docCount) enabled (Except.ok raw) query =
        Except.ok (renderResults (filterResults enabled raw))) := by
  refine ⟨?_, ?_, ?_, ?_, ?_⟩
  · intro dbs getDb dbRun genSql q db h
    unfold sql_retrieval
    rw [if_neg h]
  · intro enabled raw r hr
    exact mem_filterResultsAux enabled raw [] (by intro s hs; cases hs) r hr
  · intro dc sr q h
    simp [document_retrieval, h]
  · intro dc enabled raw q h1 h2 h3 h4
    simp [document_retrieval, h1, h2, h3, h4]
  · intro dc enabled raw q h1 h2 h3 h4
    simp [document_retrieval, h1, h2, h3, h4]

theorem C9_enabled_source_gating_witness :
    sql_retrieval ["chinook"] (fun _ => Except.ok ()) (fun _ _ => Except.ok "")
        (fun _ _ => Except.ok "") "list projects" "projects" =
      Except.ok ("Database '" ++ "projects" ++
        "' is not enabled for access. Please enable it in the file management panel.")
    ∧ fileNameOf (DocResult.mk "text" "docs/a.txt").source ∈ ["a.txt"]
    ∧ document_retrieval (Except.ok 4) [] (Except.ok []) "q" =
      Except.ok "No documents are currently enabled for searching. Please enable documents in the file management panel."
    ∧ document_retrieval (Except.ok 4) ["a.txt"] (Except.ok [DocResult.mk "y" "docs/b.txt"]) "q" =
      Except.ok ("No results found in enabled documents for query: '" ++ "q" ++
        "'. Try enabling more documents or check the query.")
    ∧ document_retrieval (Except.ok 4) ["a.txt"] (Except.ok [DocResult.mk "text" "docs/a.txt"]) "q" =
      Except.ok (renderResults (filterResults ["a.txt"] [DocResult.mk "text" "docs/a.txt"])) :=
  ⟨C9_enabled_source_gating.1 ["chinook"] _ _ _ "list projects" "projects" (by decide),
   C9_enabled_source_gating.2.1 ["a.txt"] [DocResult.mk "text" "docs/a.txt"]
     (DocResult.mk "text" "docs/a.txt") (by decide),
   C9_enabled_source_gating.2.2.1 4 (Except.ok []) "q" (by decide),
   C9_enabled_source_gating.2.2.2.1 4 ["a.txt"] [DocResult.mk "y" "docs/b.txt"] "q"
     (by decide) (by decide) (by decide) (by decide),
   C9_enabled_source_gating.2.2.2.2 4 ["a.txt"] [DocResult.mk "text" "docs/a.txt"] "q"
     (by decide) (by decide) (by decide) (by decide)⟩

/-- C1: over any sequence of N queries handled in one session starting from
an empty message list, each turn appends the user message and then exactly
one assistant message on every path (success, no tools, exception), so the
final message list has exactly 2N messages alternating user, assistant,
whatever the tool calls or failures of each turn were. -/
theorem C1_message_ordering_invariant (inputs : List TurnInput)
    (tools0 : List ToolEntry) (logs0 : List LogEntry) (ca : String) :
    (processTurns (Conversation.mk [] tools0 logs0 ca) inputs).messages.length =
      2 * inputs.length
    ∧ userAssistantAlternating
        (processTurns (Conversation.mk [] tools0 logs0 ca) inputs).messages = true := by
  constructor
  · rw [processTurns_messages]
    simp [sessionMessages_length]
  · rw [processTurns_messages]
    simpa using sessionMessages_alternating inputs

/-- C7: when the agent call raises an exception with text `msg` while
tools are enabled, the turn still appends an assistant message containing
the surfaced error string `Error: msg`, and an error-typed execution log
entry carrying `msg` is merged into the persisted conversation. -/
theorem C7_composition_failure_surfaced (conv : Conversation) (t : ToolToggles)
    (prompt msg : String) (timing : TimingInfo) (now : String)
    (h : (get_enabled_tool_functions t).isEmpty = false) :
    (handleTurn conv t prompt (TurnOutcome.exception msg) timing now).messages =
      conv.messages ++ [Message.human prompt, Message.ai ("Error: " ++ msg)]
    ∧ ∃ e ∈ (handleTurn conv t prompt (TurnOutcome.exception msg) timing now).execution_logs,
        ("type", JVal.s "error") ∈ e ∧ ("message", JVal.s msg) ∈ e := by
  have hb : turnBranch t (TurnOutcome.exception msg) =
      ("Error: " ++ msg, [], [errorLogEntry msg]) := by
    simp [turnBranch, h]
  constructor
  · rw [handleTurn_messages, hb]
  · have hmem : errorLogEntry msg ∈
        (turnBranch t (TurnOutcome.exception msg)).2.2 ++
          [timingEntry prompt timing (turnBranch t (TurnOutcome.exception msg)).2.1] := by
      rw [hb]
      exact List.mem_append_left _ (List.mem_cons_self _ _)
    rcases exists_sig_mem_mergeLogs conv.execution_logs _ _ hmem with ⟨e2, he2, hsig⟩
    refine ⟨e2, he2, ?_, ?_⟩
    · exact pair_mem_of_sig_eq hsig (by simp [errorLogEntry])
    · exact pair_mem_of_sig_eq hsig (by simp [errorLogEntry])

theorem C7_composition_failure_surfaced_witness :
    (get_enabled_tool_functions ⟨true, true, true, true⟩).isEmpty = false
    ∧ ((handleTurn (Conversation.mk [] [] [] "c") ⟨true, true, true, true⟩ "hi"
          (TurnOutcome.exception "LLM unavailable") ⟨"s", "e", "0.1"⟩ "n").messages =
        [] ++ [Message.human "hi", Message.ai ("Error: " ++ "LLM unavailable")]
      ∧ ∃ e ∈ (handleTurn (Conversation.mk [] [] [] "c") ⟨true, true, true, true⟩ "hi"
          (TurnOutcome.exception "LLM unavailable") ⟨"s", "e", "0.1"⟩ "n").execution_logs,
          ("type", JVal.s "error") ∈ e ∧ ("message", JVal.s "LLM unavailable") ∈ e) :=
  ⟨rfl, C7_composition_failure_surfaced (Conversation.mk [] [] [] "c")
    ⟨true, true, true, true⟩ "hi" "LLM unavailable" ⟨"s", "e", "0.1"⟩ "n" rfl⟩

/-- C4: the merge step is idempotent: a new tool record whose call id is
already among the existing records is not appended, a new log entry whose
full-content signature is already present is not appended, and re-merging
the same batch of records (each tool record carrying a call id, as the
extraction produces them) is a no-op for both lists. -/
theorem C4_idempotent_merge :
    (∀ (ex : List ToolEntry) (r : ToolRecord) (now : String) (c : String),
      truthyId r.call_id = some c → c ∈ existingToolIds ex →
      mergeTools ex [ToolEntry.record r] now = ex)
    ∧ (∀ (ex : List LogEntry) (e : LogEntry),
      build_log_signature e ∈ ex.map build_log_signature →
      mergeLogs ex [e] = ex)
    ∧ (∀ (ex nw : List ToolEntry) (now now2 : String),
      (∀ r, ToolEntry.record r ∈ nw → truthyId r.call_id ≠ none) →
      mergeTools (mergeTools ex nw now) nw now2 = mergeTools ex nw now)
    ∧ (∀ (ex nw : List LogEntry), mergeLogs (mergeLogs ex nw) nw = mergeLogs ex nw) := by
  refine ⟨?_, ?_, mergeTools_remerge, mergeLogs_remerge⟩
  · intro ex r now c hc hmem
    unfold mergeTools
    simp only [dedupNewTools, hc, hmem, if_pos, List.append_nil]
  · intro ex e hmem
    unfold mergeLogs
    simp only [dedupNewLogs, hmem, if_pos, List.append_nil]

theorem C4_idempotent_merge_witness :
    mergeTools
        [ToolEntry.record (ToolRecord.mk "search_web" (some "c1") [] (some "t") "completed" none)]
        [ToolEntry.record (ToolRecord.mk "search_web" (some "c1") [] none "called" none)] "t2" =
      [ToolEntry.record (ToolRecord.mk "search_web" (some "c1") [] (some "t") "completed" none)]
    ∧ mergeLogs [[("type", JVal.s "error"), ("message", JVal.s "m")]]
        [[("type", JVal.s "error"), ("message", JVal.s "m")]] =
      [[("type", JVal.s "error"), ("message", JVal.s "m")]]
    ∧ mergeTools
        (mergeTools [] [ToolEntry.record (ToolRecord.mk "sql_retrieval" (some "c2") [] none "called" none)] "t3")
        [ToolEntry.record (ToolRecord.mk "sql_retrieval" (some "c2") [] none "called" none)] "t4" =
      mergeTools [] [ToolEntry.record (ToolRecord.mk "sql_retrieval" (some "c2") [] none "called" none)] "t3"
    ∧ mergeLogs (mergeLogs [] [[("a", JVal.n 1)]]) [[("a", JVal.n 1)]] =
      mergeLogs [] [[("a", JVal.n 1)]] :=
  ⟨C4_idempotent_merge.1 _ _ "t2" "c1" rfl (by decide),
   C4_idempotent_merge.2.1 _ _ (by decide),
   C4_idempotent_merge.2.2.1 [] _ "t3" "t4"
     (by
       intro r hr
       have heq : ToolEntry.record r =
           ToolEntry.record (ToolRecord.mk "sql_retrieval" (some "c2") [] none "called" none) :=
         List.mem_singleton.mp hr
       cases heq
       decide),
   C4_idempotent_merge.2.2.2 [] _⟩

/-! ## C8: response truncation and what the outputs retain -/

/-- All string values stored in a tool record. -/
def toolRecordStrings (r : ToolRecord) : List String :=
  [r.tool_name] ++ r.call_id.toList ++ (r.arguments.flatMap fun p => [p.1, p.2]) ++
  r.timestamp.toList ++ [r.status] ++ r.response.toList

/-- All string values stored in a `tools_used` entry. -/
def toolEntryStrings : ToolEntry → List String
  | ToolEntry.record r => toolRecordStrings r
  | ToolEntry.raw s => [s]

/-- All string values contained in one log value. -/
def jvalStrings : JVal → List String
  | JVal.s v => [v]
  | JVal.n _ => []
  | JVal.names v => v
  | JVal.flow v => v.map fun q => q.2.1

/-- All string values contained in one log entry. -/
def logEntryStrings (e : LogEntry) : List String :=
  e.flatMap fun p => p.1 :: jvalStrings p.2

/-- Every string contained in the `(response, tools_used, execution_logs)`
triple returned by `run_agent_query_with_tools`. -/
def agentResultStrings (res : String × List ToolEntry × List LogEntry) : List String :=
  res.1 :: (res.2.1.flatMap toolEntryStrings ++ res.2.2.flatMap logEntryStrings)

/-- A 501-character tool output, one character past the preview bound. -/
def c8ToolOutput : String := String.mk (List.replicate 501 'a')

/-- A final message list with one tool call whose output is `c8ToolOutput`. -/
def c8FinalMessages : List AgentMsg :=
  [AgentMsg.human "q", AgentMsg.ai "" [ToolCall.mk "search_web" "call_1" []],
   AgentMsg.tool c8ToolOutput "call_1", AgentMsg.ai "answer" []]

set_option maxRecDepth 10000

/-- C8 counterexample: for a 501-character tool output the stored response
is the truncated preview, and the full untruncated text is retained nowhere
in the returned response, tool records or execution logs — contradicting
the claim that the full text is retained for logging. -/
theorem C8_counterexample_full_text_not_retained :
    (run_agent_query_with_tools "q" (Except.ok c8FinalMessages) "t0" "dict").2.1 =
      [ToolEntry.record (ToolRecord.mk "search_web" (some "call_1") [] (some "t0")
        "completed" (some (String.mk (List.replicate 500 'a') ++ "...")))]
    ∧ String.mk (List.replicate 500 'a') ++ "..." ≠ c8ToolOutput
    ∧ c8ToolOutput ∉
        agentResultStrings (run_agent_query_with_tools "q" (Except.ok c8FinalMessages) "t0" "dict") :=
  ⟨by decide, by decide, by decide⟩

/-- C8 amended: every response stored on an extracted tool record is the
truncation of the corresponding tool output — the 500-character prefix plus
an ellipsis when the output exceeds 500 characters, the unchanged text
otherwise; the claim's further assertion that the full untruncated text is
also retained for logging is dropped (only the preview is stored). -/
theorem C8_amended_response_truncation :
    (∀ (msgs : List AgentMsg) (now : String) (r : ToolRecord) (s : String),
      ToolEntry.record r ∈ extractTools msgs now → r.response = some s →
      ∃ full, s = truncateResp full)
    ∧ (∀ content : String, 500 < content.length →
        truncateResp content = String.mk (content.data.take 500) ++ "..."
        ∧ (truncateResp content).length = 503)
    ∧ (∀ content : String, content.length ≤ 500 → truncateResp content = content) := by
  refine ⟨?_, ?_, ?_⟩
  · intro msgs now r s hr hresp
    rcases List.mem_flatMap.mp hr with ⟨⟨i, m⟩, hm, hrec⟩
    cases m with
    | human c => cases hrec
    | system c => cases hrec
    | tool c tcid => cases hrec
    | ai c tcs =>
      dsimp only at hrec
      by_cases hempty : tcs.isEmpty
      · rw [if_pos hempty] at hrec
        cases hrec
      · rw [if_neg hempty] at hrec
        rcases List.mem_map.mp hrec with ⟨tc, htc, heq⟩
        have heq2 : recordForCall msgs i now tc = r := ToolEntry.record.injEq .. |>.mp heq
        unfold recordForCall at heq2
        cases hfind : findToolMessage (msgs.drop (i + 1)) tc.id with
        | some c2 =>
          rw [hfind] at heq2
          subst heq2
          simp only [Option.some.injEq] at hresp
          exact ⟨c2, hresp.symm⟩
        | none =>
          rw [hfind] at heq2
          subst heq2
          cases hresp
  · intro content h
    unfold truncateResp
    rw [if_pos h]
    refine ⟨rfl, ?_⟩
    have hcl : content.data.length = content.length := rfl
    have hlen : (String.mk (content.data.take 500)).length = 500 := by
      show (content.data.take 500).length = 500
      rw [List.length_take]
      omega
    rw [String.length_append, hlen]
    rfl
  · intro content h
    unfold truncateResp
    rw [if_neg (by omega)]

theorem C8_amended_response_truncation_witness :
    (ToolEntry.record (ToolRecord.mk "search_web" (some "c1") [] (some "t0") "completed"
        (some "hello"))
      ∈ extractTools [AgentMsg.ai "" [ToolCall.mk "search_web" "c1" []],
          AgentMsg.tool "hello" "c1"] "t0"
     ∧ ∃ full, "hello" = truncateResp full)
    ∧ (500 < c8ToolOutput.length
       ∧ truncateResp c8ToolOutput = String.mk (c8ToolOutput.data.take 500) ++ "..."
       ∧ (truncateResp c8ToolOutput).length = 503)
    ∧ ("hi".length ≤ 500 ∧ truncateResp "hi" = "hi") := by
  refine ⟨⟨by decide, ?_⟩, ⟨by decide, ?_⟩, ⟨by decide, ?_⟩⟩
  · exact C8_amended_response_truncation.1
      [AgentMsg.ai "" [ToolCall.mk "search_web" "c1" []], AgentMsg.tool "hello" "c1"] "t0"
      (ToolRecord.mk "search_web" (some "c1") [] (some "t0") "completed" (some "hello"))
      "hello" (by decide) rfl
  · exact C8_amended_response_truncation.2.1 c8ToolOutput (by decide)
  · exact C8_amended_response_truncation.2.2 "hi" (by decide)

/-! ## C10: decimal id round-trip and counter freshness -/

theorem digitChar_spec (d : Nat) (h : d < 10) :
    (digitChar d).isDigit = true ∧ (digitChar d).toNat - 48 = d
    ∧ digitChar d ≠ '-' ∧ digitChar d ≠ '+'
    ∧ isPySpace (digitChar d) = false ∧ digitChar d ≠ '_' := by
  interval_cases d <;> refine ⟨by decide, by decide, by decide, by decide, by decide, by decide⟩

/-- The digit-fold value used by `digitsVal?`. -/
def digitsFold (l : List Char) : Nat :=
  l.foldl (fun acc c => acc * 10 + (c.toNat - 48)) 0

theorem natToRevDigits_spec :
    ∀ (fuel n : Nat), n < fuel →
      natToRevDigits fuel n ≠ []
      ∧ (∀ c ∈ natToRevDigits fuel n, ∃ d, d < 10 ∧ c = digitChar d)
      ∧ digitsFold (natToRevDigits fuel n).reverse = n := by
  intro fuel
  induction fuel with
  | zero => intro n hn; omega
  | succ f ih =>
    intro n hn
    by_cases h10 : n < 10
    · simp only [natToRevDigits, if_pos h10]
      refine ⟨by simp, ?_, ?_⟩
      · intro c hc
        rcases List.mem_singleton.mp hc with rfl
        exact ⟨n, h10, rfl⟩
      · simp [digitsFold, (digitChar_spec n h10).2.1]
    · have hdivlt : n / 10 < f := by
        have h1 : n / 10 < n := Nat.div_lt_self (by omega) (by omega)
        omega
      rcases ih (n / 10) hdivlt with ⟨hne, hdig, hval⟩
      simp only [natToRevDigits, if_neg h10]
      refine ⟨by simp, ?_, ?_⟩
      · intro c hc
        rcases List.mem_cons.mp hc with rfl | hc2
        · exact ⟨n % 10, Nat.mod_lt _ (by omega), rfl⟩
        · exact hdig c hc2
      · rw [List.reverse_cons]
        unfold digitsFold
        rw [List.foldl_append]
        unfold digitsFold at hval
        rw [hval]
        simp only [List.foldl_cons, List.foldl_nil]
        have := (digitChar_spec (n % 10) (Nat.mod_lt _ (by omega))).2.1
        rw [this]
        omega

theorem natReprChars_spec (n : Nat) :
    natReprChars n ≠ []
    ∧ (∀ c ∈ natReprChars n, ∃ d, d < 10 ∧ c = digitChar d)
    ∧ digitsVal? (natReprChars n) = some n := by
  rcases natToRevDigits_spec (n + 1) n (by omega) with ⟨hne, hdig, hval⟩
  have hne2 : natReprChars n ≠ [] := by
    unfold natReprChars
    simpa using hne
  have hdig2 : ∀ c ∈ natReprChars n, ∃ d, d < 10 ∧ c = digitChar d := by
    intro c hc
    exact hdig c (List.mem_reverse.mp hc)
  refine ⟨hne2, hdig2, ?_⟩
  unfold digitsVal?
  rw [if_neg (by simpa [List.isEmpty_eq_false] using hne2)]
  rw [if_pos ?_]
  · unfold natReprChars
    exact congrArg some hval
  · rw [List.all_eq_true]
    intro c hc
    rcases hdig2 c hc with ⟨d, hd, rfl⟩
    exact (digitChar_spec d hd).1

theorem pyStripChars_eq_self (l : List Char) (h : ∀ c ∈ l, isPySpace c = false) :
    pyStripChars l = l := by
  have h1 : l.dropWhile isPySpace = l := by
    cases l with
    | nil => rfl
    | cons x xs =>
      rw [List.dropWhile_cons, h x (List.mem_cons_self _ _)]
      simp
  unfold pyStripChars
  rw [h1]
  have h2 : l.reverse.dropWhile isPySpace = l.reverse := by
    cases hr : l.reverse with
    | nil => rfl
    | cons x xs =>
      rw [List.dropWhile_cons, h x ?_]
      · simp
      · rw [← List.mem_reverse, hr]
        exact List.mem_cons_self _ _
  rw [h2, List.reverse_reverse]

theorem pyIntChars_natReprChars (n : Nat) : pyIntChars? (natReprChars n) = some (n : Int) := by
  rcases natReprChars_spec n with ⟨hne, hdig, hval⟩
  have hstrip : pyStripChars (natReprChars n) = natReprChars n := by
    refine pyStripChars_eq_self _ ?_
    intro c hc
    rcases hdig c hc with ⟨d, hd, rfl⟩
    exact (digitChar_spec d hd).2.2.2.2.1
  unfold pyIntChars?
  rw [hstrip]
  cases hl : natReprChars n with
  | nil => exact absurd hl hne
  | cons c ds =>
    have hcd : ∃ d, d < 10 ∧ c = digitChar d := by
      refine hdig c ?_
      rw [hl]; exact List.mem_cons_self _ _
    rcases hcd with ⟨d, hd, rfl⟩
    dsimp only
    rw [if_neg (digitChar_spec d hd).2.2.1, if_neg (digitChar_spec d hd).2.2.2.1]
    rw [← hl, hval]
    rfl

theorem splitChars_ne_nil (sep : Char) : ∀ l : List Char, splitChars sep l ≠ [] := by
  intro l
  cases l with
  | nil => simp [splitChars]
  | cons x xs =>
    simp only [splitChars]
    split
    · simp
    · split
      · simp
      · simp

theorem splitChars_no_sep (sep : Char) :
    ∀ l : List Char, sep ∉ l → splitChars sep l = [l] := by
  intro l
  induction l with
  | nil => intro _; rfl
  | cons x xs ih =>
    intro h
    have hx : x ≠ sep := fun heq => h (heq ▸ List.mem_cons_self _ _)
    have hxs : sep ∉ xs := fun hin => h (List.mem_cons_of_mem _ hin)
    simp only [splitChars, if_neg hx, ih hxs]

theorem splitChars_cons_ne (sep c : Char) (h : c ≠ sep) (l : List Char)
    (y : List Char) (ys : List (List Char)) (hl : splitChars sep l = y :: ys) :
    splitChars sep (c :: l) = (c :: y) :: ys := by
  simp only [splitChars, if_neg h, hl]

theorem parse_numeric_id_roundtrip (n : Int) (hn : 0 ≤ n) :
    parse_numeric_id ("conv_" ++ intReprStr n) = some n := by
  have hrepr : intReprStr n = String.mk (natReprChars n.toNat) := by
    unfold intReprStr
    rw [if_neg (by omega)]
  have hdata : ("conv_" ++ intReprStr n).data =
      'c' :: 'o' :: 'n' :: 'v' :: '_' :: natReprChars n.toNat := by
    rw [hrepr]
    rfl
  rcases natReprChars_spec n.toNat with ⟨hne, hdig, hval⟩
  have hnosep : '_' ∉ natReprChars n.toNat := by
    intro hin
    rcases hdig _ hin with ⟨d, hd, heq⟩
    exact (digitChar_spec d hd).2.2.2.2.2 heq.symm
  have s0 : splitChars '_' (natReprChars n.toNat) = [natReprChars n.toNat] :=
    splitChars_no_sep _ _ hnosep
  have s1 : splitChars '_' ('_' :: natReprChars n.toNat) =
      [] :: [natReprChars n.toNat] := by
    simp [splitChars, s0]
  have s2 := splitChars_cons_ne '_' 'v' (by decide) _ _ _ s1
  have s3 := splitChars_cons_ne '_' 'n' (by decide) _ _ _ s2
  have s4 := splitChars_cons_ne '_' 'o' (by decide) _ _ _ s3
  have s5 := splitChars_cons_ne '_' 'c' (by decide) _ _ _ s4
  unfold parse_numeric_id
  rw [hdata, s5]
  simp only [List.get?]
  rw [pyIntChars_natReprChars]
  congr 1
  omega

/-- The key strings of the session map. -/
def sessionKeys (st : SessionState) : List String :=
  st.conversations.map fun p => p.1

/-- All parsed-id values of the keys stay below the counter. -/
def counterDominates (st : SessionState) : Prop :=
  ∀ k ∈ sessionKeys st, ∀ m : Int, parse_numeric_id k = some m →
    m < st.conversation_counter

theorem le_foldl_max : ∀ (xs : List Int) (a b : Int), a ≤ b → a ≤ xs.foldl max b := by
  intro xs
  induction xs with
  | nil => intro a b h; exact h
  | cons x l ih =>
    intro a b h
    exact ih a (max b x) (le_trans h (le_max_left _ _))

theorem mem_le_foldl_max : ∀ (xs : List Int) (b m : Int), m ∈ xs → m ≤ xs.foldl max b := by
  intro xs
  induction xs with
  | nil => intro b m h; cases h
  | cons x l ih =>
    intro b m h
    rcases List.mem_cons.mp h with rfl | hmem
    · exact le_foldl_max l m (max b m) (le_max_right _ _)
    · exact ih (max b x) m hmem

theorem load_from_empty_spec (loaded : List (String × Conversation)) :
    counterDominates (load_conversations_into_session ⟨[], 1⟩ loaded)
    ∧ 1 ≤ (load_conversations_into_session ⟨[], 1⟩ loaded).conversation_counter := by
  by_cases hempty : loaded.isEmpty
  · unfold load_conversations_into_session
    rw [if_pos hempty]
    constructor
    · intro k hk; cases hk
    · exact le_refl 1
  · have hkeys : sessionKeys (load_conversations_into_session ⟨[], 1⟩ loaded) =
        loaded.map fun p => p.1 := by
      unfold load_conversations_into_session
      rw [if_neg hempty]
      unfold sessionKeys dictUpdate
      simp
    have hcounter : (load_conversations_into_session ⟨[], 1⟩ loaded).conversation_counter =
        match loaded.filterMap (fun p => parse_numeric_id p.1) with
        | [] => 1
        | x :: xs => max 1 (xs.foldl max x + 1) := by
      unfold load_conversations_into_session
      rw [if_neg hempty]
    constructor
    · intro k hk m hm
      rw [hkeys] at hk
      rcases List.mem_map.mp hk with ⟨p, hp, rfl⟩
      have hmem : m ∈ loaded.filterMap fun q => parse_numeric_id q.1 :=
        List.mem_filterMap.mpr ⟨p, hp, hm⟩
      rw [hcounter]
      cases hl : loaded.filterMap fun q => parse_numeric_id q.1 with
      | nil => rw [hl] at hmem; cases hmem
      | cons x xs =>
        rw [hl] at hmem
        have hle : m ≤ xs.foldl max x := by
          rcases List.mem_cons.mp hmem with rfl | hmem2
          · exact le_foldl_max xs m m (le_refl m)
          · exact mem_le_foldl_max xs x m hmem2
        calc m ≤ xs.foldl max x := hle
          _ < xs.foldl max x + 1 := by omega
          _ ≤ max 1 (xs.foldl max x + 1) := le_max_right _ _
    · rw [hcounter]
      cases loaded.filterMap fun p => parse_numeric_id p.1 with
      | nil => exact le_refl 1
      | cons x xs => exact le_max_left _ _

theorem create_fresh_of_dominates (st : SessionState)
    (hdom : counterDominates st) (hpos : 0 ≤ st.conversation_counter)
    (createdAt : String) :
    (create_new_conversation st createdAt).2 ∉ sessionKeys st
    ∧ (create_new_conversation st createdAt).1.conversations =
      st.conversations ++
        [((create_new_conversation st createdAt).2, emptyConversation createdAt)]
    ∧ counterDominates (create_new_conversation st createdAt).1
    ∧ 0 ≤ (create_new_conversation st createdAt).1.conversation_counter := by
  have hfresh : ("conv_" ++ intReprStr st.conversation_counter) ∉ sessionKeys st := by
    intro hin
    have := hdom _ hin st.conversation_counter (parse_numeric_id_roundtrip _ hpos)
    omega
  have hany : st.conversations.any
      (fun p => p.1 = "conv_" ++ intReprStr st.conversation_counter) = false := by
    rw [Bool.eq_false_iff]
    intro hany
    rcases List.any_eq_true.mp hany with ⟨p, hp, heq⟩
    exact hfresh (by
      simp only [decide_eq_true_eq] at heq
      exact heq ▸ List.mem_map.mpr ⟨p, hp, rfl⟩)
  have hconvs : (create_new_conversation st createdAt).1.conversations =
      st.conversations ++
        [("conv_" ++ intReprStr st.conversation_counter, emptyConversation createdAt)] := by
    unfold create_new_conversation dictInsert
    dsimp only
    rw [hany]
    simp
  refine ⟨hfresh, ?_, ?_, by unfold create_new_conversation; dsimp; omega⟩
  · exact hconvs
  · intro k hk m hm
    unfold sessionKeys at hk
    rw [hconvs] at hk
    rcases List.mem_map.mp hk with ⟨p, hp, rfl⟩
    rcases List.mem_append.mp hp with hold | hnew
    · have := hdom p.1 (List.mem_map.mpr ⟨p, hold, rfl⟩) m hm
      unfold create_new_conversation
      dsimp
      omega
    · rcases List.mem_singleton.mp hnew with rfl
      dsimp at hm
      rw [parse_numeric_id_roundtrip _ hpos] at hm
      rcases Option.some.injEq .. |>.mp hm with rfl
      unfold create_new_conversation
      dsimp
      omega

/-- `j` consecutive calls of `create_new_conversation`. -/
def createMany (createdAt : String) : Nat → SessionState → SessionState
  | 0, st => st
  | j + 1, st => createMany createdAt j (create_new_conversation st createdAt).1

theorem createMany_spec (createdAt : String) :
    ∀ (j : Nat) (st : SessionState),
      counterDominates st → 0 ≤ st.conversation_counter →
      counterDominates (createMany createdAt j st)
      ∧ 0 ≤ (createMany createdAt j st).conversation_counter := by
  intro j
  induction j with
  | zero => intro st h1 h2; exact ⟨h1, h2⟩
  | succ i ih =>
    intro st h1 h2
    rcases create_fresh_of_dominates st h1 h2 createdAt with ⟨_, _, h3, h4⟩
    exact ih _ h3 h4

/-- C10: after loading persisted conversations at startup, the counter is
strictly greater than every parsed numeric id among the loaded ids, and
every later `create_new_conversation` call (after any number of earlier
creations) produces an id not present in the map, so the new conversation
is appended and no existing conversation is overwritten. -/
theorem C10_counter_exceeds_loaded_ids (loaded : List (String × Conversation))
    (createdAt : String) (j : Nat) :
    (∀ k ∈ sessionKeys (load_conversations_into_session ⟨[], 1⟩ loaded),
      ∀ m : Int, parse_numeric_id k = some m →
        m < (load_conversations_into_session ⟨[], 1⟩ loaded).conversation_counter)
    ∧ ((create_new_conversation
          (createMany createdAt j (load_conversations_into_session ⟨[], 1⟩ loaded))
          createdAt).2
        ∉ sessionKeys (createMany createdAt j (load_conversations_into_session ⟨[], 1⟩ loaded))
      ∧ (create_new_conversation
          (createMany createdAt j (load_conversations_into_session ⟨[], 1⟩ loaded))
          createdAt).1.conversations =
        (createMany createdAt j (load_conversations_into_session ⟨[], 1⟩ loaded)).conversations
          ++ [((create_new_conversation
              (createMany createdAt j (load_conversations_into_session ⟨[], 1⟩ loaded))
              createdAt).2, emptyConversation createdAt)]) := by
  rcases load_from_empty_spec loaded with ⟨hdom, hpos⟩
  rcases createMany_spec createdAt j _ hdom (by omega) with ⟨hdom2, hpos2⟩
  rcases create_fresh_of_dominates _ hdom2 hpos2 createdAt with ⟨hfresh, happend, _, _⟩
  exact ⟨hdom, hfresh, happend⟩

theorem C10_counter_exceeds_loaded_ids_witness :
    ("conv_5" ∈ sessionKeys
        (load_conversations_into_session ⟨[], 1⟩ [("conv_5", emptyConversation "t")])
      ∧ parse_numeric_id "conv_5" = some 5
      ∧ (5 : Int) < (load_conversations_into_session ⟨[], 1⟩
          [("conv_5", emptyConversation "t")]).conversation_counter)
    ∧ (create_new_conversation
        (load_conversations_into_session ⟨[], 1⟩ [("conv_5", emptyConversation "t")])
        "t2").2
      ∉ sessionKeys
        (load_conversations_into_session ⟨[], 1⟩ [("conv_5", emptyConversation "t")]) := by
  refine ⟨⟨by decide, by decide, ?_⟩, ?_⟩
  · exact (C10_counter_exceeds_loaded_ids [("conv_5", emptyConversation "t")] "t2" 0).1
      "conv_5" (by decide) 5 (by decide)
  · exact ((C10_counter_exceeds_loaded_ids [("conv_5", emptyConversation "t")] "t2" 0).2).1

end LGApp
